import Mathlib

/-!
Shallow embedding of `src/tfjs-core/src/ops/image/threshold.ts`.

A tfjs tensor is modeled as a shape (list of dimensions), a dtype string and a
row-major list of values; tfjs number arithmetic is modeled over `ℚ`.
The file embeds `threshold_` (validation, grayscale conversion, threshold
selection, binarization) and the `otsu` search.  The `triangle` function
(lines 183-228 of the source) computes with `atan`/`tan`/`sqrt` and
string-parsed argmax results; it is taken as an abstract parameter of the
embedding, and the development proves that the branch calling it is
unreachable from `threshold_` (whose method assertion admits only
`'binary'` and `'otsu'`), so no theorem below depends on its value.
-/

namespace ThresholdSpec

/-- A tfjs tensor: shape, dtype string, and row-major data. -/
structure Tensor where
  shape : List ℕ
  dtype : String
  data : List ℚ
  deriving DecidableEq

/-- Luma coefficient for red (line 82 of threshold.ts, CCIR601). -/
def RED_INTENCITY_COEF : ℚ := 2989 / 10000

/-- Luma coefficient for green (line 83). -/
def GREEN_INTENCITY_COEF : ℚ := 5870 / 10000

/-- Luma coefficient for blue (line 84). -/
def BLUE_INTENCITY_COEF : ℚ := 1140 / 10000

/-- Lines 111-115: `split($image,[1,1,1],-1)` splits row-major data
`[r,g,b, r,g,b, ...]` into channels; each channel is scaled by its
coefficient and the three are summed, i.e. per pixel
`(r*RED + g*GREEN) + b*BLUE`. -/
def lumaChunks : List ℚ → List ℚ
  | r :: g :: b :: rest =>
      (r * RED_INTENCITY_COEF + g * GREEN_INTENCITY_COEF + b * BLUE_INTENCITY_COEF) ::
        lumaChunks rest
  | _ => []

/-- Lines 110-118: grayscale conversion; a 3-channel image is reduced by the
luma weighted sum, a 1-channel image is used directly. -/
def grayscaleData (image : Tensor) : List ℚ :=
  if image.shape.getD 2 0 = 3 then lumaChunks image.data else image.data

/-- Models `tf.round`: rounds half to even (banker's rounding), used on the
grayscale before binning (lines 121, 127). -/
def roundHalfEven (q : ℚ) : ℤ :=
  if q - ⌊q⌋ < 1 / 2 then ⌊q⌋
  else if 1 / 2 < q - ⌊q⌋ then ⌊q⌋ + 1
  else if ⌊q⌋ % 2 = 0 then ⌊q⌋ else ⌊q⌋ + 1

/-- Lines 121-123: `bincount(cast(round(grayscale),'int32'), tensor([]), 256)` -
for each bucket `k` in `0..255`, the number of rounded grayscale values
equal to `k`. -/
def histogram256 (grayscale : List ℚ) : List ℚ :=
  (List.range 256).map
    (fun (k : ℕ) => (((grayscale.map roundHalfEven).count ((k : ℤ)) : ℕ) : ℚ))

/-- Computes `sum(mul(values, range(k, k+size)))`: dot product of a slice with its
(offset) index vector, as used for the class means (lines 159-166). -/
def dotIdx : List ℚ → ℚ → ℚ
  | [], _ => 0
  | x :: xs, k => x * k + dotIdx xs (k + 1)

/-- Lines 151-171: the between-class variance computed by the otsu loop at
split `index`: the histogram is split after bucket `index`, class weights are
the class sums over `total`, class means are index-weighted (the second class
offset by the first class's length), and the variance is
`(weightForeground*weightBack) * (meanFirst-meanSec) * (meanFirst-meanSec)`. -/
def otsuVar (histogram : List ℚ) (total : ℚ) (index : ℕ) : ℚ :=
  let classFirst := histogram.take (index + 1)
  let classSecond := histogram.drop (index + 1)
  let weightForeground := classFirst.sum / total
  let weightBack := classSecond.sum / total
  let meanFirst := dotIdx classFirst 0 / classFirst.sum
  let meanSec := dotIdx classSecond (classFirst.length : ℚ) / classSecond.sum
  ((weightForeground * weightBack) * (meanFirst - meanSec)) * (meanFirst - meanSec)

/-- Lines 173-177: one iteration of the otsu loop; only a strict
`greater(cInBetVar, bestInBetVar)` comparison updates the running best
variance and best threshold. -/
def otsuStep (histogram : List ℚ) (total : ℚ) (acc : ℚ × ℤ) (index : ℕ) : ℚ × ℤ :=
  let cInBetVar := otsuVar histogram total index
  if acc.1 < cInBetVar then (cInBetVar, (index : ℤ)) else acc

/-- Lines 141-181: `otsu(histogram, total)`; `bestThresh` starts at `-1`,
`bestInBetVar` at `0`, and the loop runs `index` over `[0, size-1)`. -/
def otsu (histogram : List ℚ) (total : ℚ) : ℤ :=
  ((List.range (histogram.length - 1)).foldl (otsuStep histogram total) (0, -1)).2

/-- Follows the words of claim C5 (not the source): the value returned by
`otsu` is a candidate split index in `[0, size-1)` whose between-class
variance is greater than or equal to that of every candidate split index,
and is the smallest index achieving that maximum. -/
def claimedOtsuOptimal (histogram : List ℚ) (total : ℚ) : Bool :=
  match otsu histogram total with
  | Int.ofNat r =>
      decide (r < histogram.length - 1) &&
      (List.range (histogram.length - 1)).all
        (fun t => decide (otsuVar histogram total t ≤ otsuVar histogram total r)) &&
      (List.range r).all
        (fun t => decide (otsuVar histogram total t < otsuVar histogram total r))
  | Int.negSucc _ => false

/-- Line 85: `totalPixelsInImage = $image.shape[0] * $image.shape[1]`. -/
def totalPixelsInImage (image : Tensor) : ℚ :=
  ((image.shape.getD 0 0 * image.shape.getD 1 0 : ℕ) : ℚ)

/-- Lines 87 and 120-131: the scalar `$threshold` used for binarization.
It is initialized to `threshValue * 255` and overwritten by the otsu search
(or, in the dead branch, by the abstract `triangle` function) when the
method says so. -/
def effectiveThreshold (triangle : List ℚ → ℚ) (image : Tensor) (method : String)
    (threshValue : ℚ) : ℚ :=
  if method = "otsu" then
    ((otsu (histogram256 (grayscaleData image)) (totalPixelsInImage image) : ℤ) : ℚ)
  else if method = "triangle" then
    triangle (histogram256 (grayscaleData image))
  else
    threshValue * 255

/-- Lines 133-134: the boolean `invCondition` for one pixel: `lessEqual`
against the threshold when inverted, `greater` otherwise. -/
def invCondition (inverted : Bool) (g threshold : ℚ) : Bool :=
  if inverted then decide (g ≤ threshold) else decide (threshold < g)

/-- Lines 133-136: `invCondition` applied to every grayscale pixel, followed
by `cast(mul(invCondition, 255), 'int32')`. -/
def binaryMask (grayscale : List ℚ) (threshold : ℚ) (inverted : Bool) : List ℚ :=
  grayscale.map (fun g => if invCondition inverted g threshold then (255 : ℚ) else 0)

/-- Embeds `threshold_` (lines 71-139): the four `util.assert` validations in source
order (rank 3; channels 3 or 1; dtype int32 or float32; method otsu or
binary), then the binarized output, whose shape is `[h, w, 1]` (the grayscale
shape broadcast against the scalar threshold) and whose dtype is int32. -/
def threshold_ (triangle : List ℚ → ℚ) (image : Tensor) (method : String)
    (inverted : Bool) (threshValue : ℚ) : Except String Tensor :=
  if image.shape.length = 3 then
    if image.shape.getD 2 0 = 3 ∨ image.shape.getD 2 0 = 1 then
      if image.dtype = "int32" ∨ image.dtype = "float32" then
        if method = "otsu" ∨ method = "binary" then
          Except.ok
            (Tensor.mk [image.shape.getD 0 0, image.shape.getD 1 0, 1] "int32"
              (binaryMask (grayscaleData image)
                (effectiveThreshold triangle image method threshValue) inverted))
        else Except.error "Method must be binary or otsu"
      else Except.error "Error in dtype: image dtype must be int32 or float32"
    else Except.error "Error in threshold: image color channel must be equal to 3 or 1"
  else Except.error "Error in threshold: image must be rank 3"

/-- A fixed instantiation of the dead triangle branch, for concrete runs. -/
def triZero : List ℚ → ℚ := fun _ => 0

/-- Histogram (256 buckets) of a constant-0 one-pixel image: all mass in
bucket 0. -/
def degHist : List ℚ := 1 :: List.replicate 255 0

/-- Histogram (256 buckets) with one pixel in bucket 0 and one in bucket 255. -/
def splitHist : List ℚ := 1 :: (List.replicate 254 0 ++ [1])

/-! ## Helper lemmas -/

theorem dotIdx_append (l1 l2 : List ℚ) (k : ℚ) :
    dotIdx (l1 ++ l2) k = dotIdx l1 k + dotIdx l2 (k + l1.length) := by
  induction l1 generalizing k with
  | nil => simp [dotIdx]
  | cons x xs ih =>
    show x * k + dotIdx (xs ++ l2) (k + 1) =
      x * k + dotIdx xs (k + 1) + dotIdx l2 (k + ((xs.length + 1 : ℕ) : ℚ))
    rw [ih (k + 1)]
    push_cast
    ring_nf

theorem dotIdx_replicate_zero (n : ℕ) (k : ℚ) :
    dotIdx (List.replicate n 0) k = 0 := by
  induction n generalizing k with
  | zero => rfl
  | succ n ih => simp [List.replicate_succ, dotIdx, ih]

theorem otsuVar_degHist (t : ℕ) : otsuVar degHist 1 t = 0 := by
  have h : (degHist.drop (t + 1)).sum = 0 := by
    rw [degHist, List.drop_succ_cons, List.drop_replicate, List.sum_replicate, smul_zero]
  simp only [otsuVar]
  rw [h]
  simp

/-- The otsu loop invariant: after folding the candidates `0, ..., n-1` from
the initial accumulator `(0, -1)`, either no candidate had positive variance
and the accumulator is untouched, or the accumulator holds the variance and
index of the earliest candidate achieving the (positive) running maximum. -/
theorem otsu_foldl_invariant (histogram : List ℚ) (total : ℚ) (n : ℕ) :
    ((List.range n).foldl (otsuStep histogram total) (0, -1) = ((0 : ℚ), (-1 : ℤ)) ∧
      ∀ t, t < n → otsuVar histogram total t ≤ 0) ∨
    (∃ r : ℕ, r < n ∧
      (List.range n).foldl (otsuStep histogram total) (0, -1) =
        (otsuVar histogram total r, (r : ℤ)) ∧
      0 < otsuVar histogram total r ∧
      (∀ t, t < n → otsuVar histogram total t ≤ otsuVar histogram total r) ∧
      (∀ t, t < r → otsuVar histogram total t < otsuVar histogram total r)) := by
  induction n with
  | zero => exact Or.inl ⟨rfl, fun t ht => absurd ht (Nat.not_lt_zero t)⟩
  | succ n ih =>
    rw [List.range_succ, List.foldl_append]
    rcases ih with ⟨hacc, hall⟩ | ⟨r, hr, hacc, hpos, hmax, hmin⟩
    · rw [hacc]
      by_cases h : (0 : ℚ) < otsuVar histogram total n
      · refine Or.inr ⟨n, Nat.lt_succ_self n, ?_, h, ?_, ?_⟩
        · simp [otsuStep, h]
        · intro t ht
          rcases Nat.lt_succ_iff_lt_or_eq.mp ht with h' | h'
          · exact le_trans (hall t h') (le_of_lt h)
          · exact h' ▸ le_refl _
        · intro t ht
          exact lt_of_le_of_lt (hall t ht) h
      · refine Or.inl ⟨?_, ?_⟩
        · simp [otsuStep, h]
        · intro t ht
          rcases Nat.lt_succ_iff_lt_or_eq.mp ht with h' | h'
          · exact hall t h'
          · exact h' ▸ le_of_not_lt h
    · rw [hacc]
      by_cases h : otsuVar histogram total r < otsuVar histogram total n
      · refine Or.inr ⟨n, Nat.lt_succ_self n, ?_, lt_trans hpos h, ?_, ?_⟩
        · simp [otsuStep, h]
        · intro t ht
          rcases Nat.lt_succ_iff_lt_or_eq.mp ht with h' | h'
          · exact le_trans (hmax t h') (le_of_lt h)
          · exact h' ▸ le_refl _
        · intro t ht
          exact lt_of_le_of_lt (hmax t ht) h
      · refine Or.inr ⟨r, Nat.lt_succ_of_lt hr, ?_, hpos, ?_, hmin⟩
        · simp [otsuStep, h]
        · intro t ht
          rcases Nat.lt_succ_iff_lt_or_eq.mp ht with h' | h'
          · exact hmax t h'
          · exact h' ▸ le_of_not_lt h

/-- If no candidate split has positive between-class variance, `otsu`
returns its initial `bestThresh`, the sentinel `-1`. -/
theorem otsu_of_all_nonpos (histogram : List ℚ) (total : ℚ)
    (h : ∀ t, t < histogram.length - 1 → otsuVar histogram total t ≤ 0) :
    otsu histogram total = -1 := by
  unfold otsu
  rcases otsu_foldl_invariant histogram total (histogram.length - 1) with
    ⟨hacc, _⟩ | ⟨r, hr, _, hpos, _, _⟩
  · rw [hacc]
  · exact absurd hpos (not_lt_of_le (h r hr))

/-- If some candidate split has positive between-class variance, `otsu`
returns the earliest candidate index achieving the maximal variance. -/
theorem otsu_earliest_argmax (histogram : List ℚ) (total : ℚ)
    (h : ∃ t, t < histogram.length - 1 ∧ 0 < otsuVar histogram total t) :
    ∃ r : ℕ, otsu histogram total = (r : ℤ) ∧ r < histogram.length - 1 ∧
      (∀ t, t < histogram.length - 1 →
        otsuVar histogram total t ≤ otsuVar histogram total r) ∧
      (∀ t, t < r → otsuVar histogram total t < otsuVar histogram total r) := by
  unfold otsu
  rcases otsu_foldl_invariant histogram total (histogram.length - 1) with
    ⟨hacc, hall⟩ | ⟨r, hr, hacc, _, hmax, hmin⟩
  · rcases h with ⟨t, ht, hpos⟩
    exact absurd hpos (not_lt_of_le (hall t ht))
  · exact ⟨r, by rw [hacc], hr, hmax, hmin⟩

/-- Whatever the histogram, `otsu` returns either the sentinel `-1` or a candidate split
index in `[0, size - 1)`. -/
theorem otsu_result_range (histogram : List ℚ) (total : ℚ) :
    otsu histogram total = -1 ∨
      ∃ r : ℕ, otsu histogram total = (r : ℤ) ∧ r < histogram.length - 1 := by
  unfold otsu
  rcases otsu_foldl_invariant histogram total (histogram.length - 1) with
    ⟨hacc, _⟩ | ⟨r, hr, hacc, _, _, _⟩
  · exact Or.inl (by rw [hacc])
  · exact Or.inr ⟨r, by rw [hacc], hr⟩

/-- Running `otsu` on the degenerate all-in-one-bucket histogram returns `-1`. -/
theorem otsu_degHist : otsu degHist 1 = -1 :=
  otsu_of_all_nonpos degHist 1 (fun t _ => le_of_eq (otsuVar_degHist t))

theorem degHist_length : degHist.length = 256 := by
  rw [degHist, List.length_cons, List.length_replicate]

theorem splitHist_length : splitHist.length = 256 := by
  rw [splitHist, List.length_cons, List.length_append, List.length_replicate,
    List.length_singleton]

/-- The first candidate split of `splitHist` (one pixel in bucket 0, one in
bucket 255, total 2) has positive between-class variance. -/
theorem otsuVar_splitHist_zero : otsuVar splitHist 2 0 = 65025 / 4 := by
  have htake : splitHist.take 1 = [1] := by
    rw [splitHist, List.take_succ_cons, List.take_zero]
  have hdrop : splitHist.drop 1 = List.replicate 254 0 ++ [1] := by
    rw [splitHist, List.drop_succ_cons, List.drop_zero]
  simp only [otsuVar, htake, hdrop]
  rw [dotIdx_append, dotIdx_replicate_zero, List.sum_append, List.sum_replicate, smul_zero]
  norm_num [dotIdx]

/-- When `otsu` returns a negative value, the claimed optimality property
is false (the sentinel is not a candidate split index). -/
theorem claimedOtsuOptimal_of_negSucc (histogram : List ℚ) (total : ℚ) (k : ℕ)
    (h : otsu histogram total = Int.negSucc k) :
    claimedOtsuOptimal histogram total = false := by
  unfold claimedOtsuOptimal
  rw [h]

/-- The property claimed for `otsu` fails on `degHist`: the returned value
is the sentinel `-1`, not a candidate split index. -/
theorem claimedOtsuOptimal_degHist : claimedOtsuOptimal degHist 1 = false :=
  claimedOtsuOptimal_of_negSucc degHist 1 0 otsu_degHist

/-- Pixels of a binarized mask are 0 or 255. -/
theorem binaryMask_mem (grayscale : List ℚ) (threshold : ℚ) (inverted : Bool) :
    ∀ v ∈ binaryMask grayscale threshold inverted, v = 0 ∨ v = 255 := by
  intro v hv
  rcases List.mem_map.mp hv with ⟨g, _, hg⟩
  by_cases h : invCondition inverted g threshold
  · rw [if_pos h] at hg
    exact Or.inr hg.symm
  · rw [if_neg h] at hg
    exact Or.inl hg.symm

/-- The inverted mask is the pixelwise `255 - x` complement of the
non-inverted mask: `lessEqual` is the negation of `greater`. -/
theorem binaryMask_inverted (grayscale : List ℚ) (threshold : ℚ) :
    binaryMask grayscale threshold true =
      (binaryMask grayscale threshold false).map (fun v => 255 - v) := by
  unfold binaryMask
  rw [List.map_map]
  refine List.map_congr_left ?_
  intro g _
  by_cases h : g ≤ threshold
  · simp [invCondition, h, not_lt_of_le h]
  · simp [invCondition, h, lt_of_not_le h]

/-- A rank-3 shape is exactly its three dimensions. -/
theorem shape_eq_of_length_three (l : List ℕ) (h : l.length = 3) :
    l = [l.getD 0 0, l.getD 1 0, l.getD 2 0] := by
  rcases l with _ | ⟨a, _ | ⟨b, _ | ⟨c, rest⟩⟩⟩ <;> simp_all

/-- For method `binary`, the effective threshold is `threshValue * 255`. -/
theorem effectiveThreshold_binary (triangle : List ℚ → ℚ) (image : Tensor)
    (threshValue : ℚ) :
    effectiveThreshold triangle image "binary" threshValue = threshValue * 255 := rfl

/-- Elimination for a successful `threshold_` call: all four validations
passed and the output is the binarized grayscale. -/
theorem threshold_ok_elim (triangle : List ℚ → ℚ) (image : Tensor) (method : String)
    (inverted : Bool) (threshValue : ℚ) (out : Tensor)
    (h : threshold_ triangle image method inverted threshValue = Except.ok out) :
    image.shape.length = 3 ∧
    (image.shape.getD 2 0 = 3 ∨ image.shape.getD 2 0 = 1) ∧
    (image.dtype = "int32" ∨ image.dtype = "float32") ∧
    (method = "otsu" ∨ method = "binary") ∧
    out = Tensor.mk [image.shape.getD 0 0, image.shape.getD 1 0, 1] "int32"
      (binaryMask (grayscaleData image)
        (effectiveThreshold triangle image method threshValue) inverted) := by
  unfold threshold_ at h
  split_ifs at h with h1 h2 h3 h4
  · exact ⟨h1, h2, h3, h4, (Except.ok.inj h).symm⟩

/-- The p-th luma value is the weighted sum of the p-th pixel's channels. -/
theorem lumaChunks_getD (l : List ℚ) (p : ℕ) (h : 3 * p + 2 < l.length) :
    (lumaChunks l).getD p 0 =
      RED_INTENCITY_COEF * l.getD (3 * p) 0 +
      GREEN_INTENCITY_COEF * l.getD (3 * p + 1) 0 +
      BLUE_INTENCITY_COEF * l.getD (3 * p + 2) 0 := by
  induction p generalizing l with
  | zero =>
    rcases l with _ | ⟨r, _ | ⟨g, _ | ⟨b, rest⟩⟩⟩
    · simp at h
    · simp at h
    · simp at h
    · show r * RED_INTENCITY_COEF + g * GREEN_INTENCITY_COEF + b * BLUE_INTENCITY_COEF =
        RED_INTENCITY_COEF * r + GREEN_INTENCITY_COEF * g + BLUE_INTENCITY_COEF * b
      ring
  | succ p ih =>
    rcases l with _ | ⟨r, _ | ⟨g, _ | ⟨b, rest⟩⟩⟩
    · simp at h
    · simp at h
    · simp at h
    · have h' : 3 * p + 2 < rest.length := by
        simp only [List.length_cons] at h
        omega
      have gA : (r :: g :: b :: rest).getD (3 * (p + 1)) 0 = rest.getD (3 * p) 0 := by
        have e : 3 * (p + 1) = 3 * p + 1 + 1 + 1 := by ring
        rw [e, List.getD_cons_succ, List.getD_cons_succ, List.getD_cons_succ]
      have gB : (r :: g :: b :: rest).getD (3 * (p + 1) + 1) 0 = rest.getD (3 * p + 1) 0 := by
        have e : 3 * (p + 1) + 1 = 3 * p + 1 + 1 + 1 + 1 := by ring
        rw [e, List.getD_cons_succ, List.getD_cons_succ, List.getD_cons_succ]
      have gC : (r :: g :: b :: rest).getD (3 * (p + 1) + 2) 0 = rest.getD (3 * p + 2) 0 := by
        have e : 3 * (p + 1) + 2 = 3 * p + 2 + 1 + 1 + 1 := by ring
        rw [e, List.getD_cons_succ, List.getD_cons_succ, List.getD_cons_succ]
      show (lumaChunks rest).getD p 0 = _
      rw [ih rest h', gA, gB, gC]

/-- Introduction for a successful `threshold_` call. -/
theorem threshold_ok_of_valid (triangle : List ℚ → ℚ) (image : Tensor) (method : String)
    (inverted : Bool) (threshValue : ℚ)
    (h1 : image.shape.length = 3)
    (h2 : image.shape.getD 2 0 = 3 ∨ image.shape.getD 2 0 = 1)
    (h3 : image.dtype = "int32" ∨ image.dtype = "float32")
    (h4 : method = "otsu" ∨ method = "binary") :
    threshold_ triangle image method inverted threshValue =
      Except.ok (Tensor.mk [image.shape.getD 0 0, image.shape.getD 1 0, 1] "int32"
        (binaryMask (grayscaleData image)
          (effectiveThreshold triangle image method threshValue) inverted)) := by
  unfold threshold_
  rw [if_pos h1, if_pos h2, if_pos h3, if_pos h4]

/-! ## Claim theorems -/

/-- Claim C1: the method assertion (lines 106-108) admits only `'binary'`
and `'otsu'`, so a call with method `'triangle'` on a perfectly valid image
fails with the validation error instead of computing a triangle threshold,
although the function's own documentation (lines 61-62) lists `'triangle'`
and a complete triangle implementation exists at lines 183-228. -/
theorem C1_triangle_method_rejected :
    threshold_ triZero (Tensor.mk [1, 1, 1] "int32" [100]) "triangle" false (1 / 2) =
      Except.error "Method must be binary or otsu" := by
  with_unfolding_all rfl

/-- Claim C2, counterexample: a valid `[1,1,3]` image is accepted but the
output has shape `[1,1,1]`, not the input's shape `[1,1,3]`. -/
theorem C2_shape_counterexample :
    threshold_ triZero (Tensor.mk [1, 1, 3] "int32" [10, 20, 30]) "binary" false (1 / 2) =
      Except.ok (Tensor.mk [1, 1, 1] "int32" [0]) ∧
    [1, 1, 1] ≠ (Tensor.mk [1, 1, 3] "int32" [10, 20, 30]).shape := by
  constructor
  · with_unfolding_all rfl
  · decide

/-- Claim C2 (amended): for every accepted call, every output value is 0 or
255, the output dtype is int32, and the output shape is `[h, w, 1]`; the
output shape equals the input shape exactly when the input is 1-channel
(a `[h,w,3]` input yields a `[h,w,1]` output). -/
theorem C2_output_values_dtype_shape (triangle : List ℚ → ℚ) (image : Tensor)
    (method : String) (inverted : Bool) (threshValue : ℚ) (out : Tensor)
    (h : threshold_ triangle image method inverted threshValue = Except.ok out) :
    (∀ v ∈ out.data, v = 0 ∨ v = 255) ∧
    out.dtype = "int32" ∧
    out.shape = [image.shape.getD 0 0, image.shape.getD 1 0, 1] ∧
    (image.shape.getD 2 0 = 1 → out.shape = image.shape) := by
  obtain ⟨h1, _, _, _, rfl⟩ := threshold_ok_elim _ _ _ _ _ _ h
  refine ⟨binaryMask_mem _ _ _, rfl, rfl, ?_⟩
  intro hc
  conv_rhs => rw [shape_eq_of_length_three image.shape h1]
  rw [hc]

/-- Witness for C2 at a concrete accepted 1-channel call. -/
theorem C2_witness :
    (threshold_ triZero (Tensor.mk [2, 2, 1] "int32" [10, 200, 250, 5]) "binary" false (1 / 2) =
      Except.ok (Tensor.mk [2, 2, 1] "int32" [0, 255, 255, 0])) ∧
    ((∀ v ∈ [(0 : ℚ), 255, 255, 0], v = 0 ∨ v = 255) ∧
      "int32" = "int32" ∧
      [2, 2, 1] = [(2 : ℕ), 2, 1] ∧
      ((1 : ℕ) = 1 → [2, 2, 1] = [(2 : ℕ), 2, 1])) := by
  have h : threshold_ triZero (Tensor.mk [2, 2, 1] "int32" [10, 200, 250, 5]) "binary"
      false (1 / 2) = Except.ok (Tensor.mk [2, 2, 1] "int32" [0, 255, 255, 0]) := by
    with_unfolding_all rfl
  exact ⟨h, C2_output_values_dtype_shape triZero _ _ _ _ _ h⟩

/-- Claim C3: for method binary, each output pixel is 255 precisely when the
(possibly inverted) comparison of its grayscale value against
`threshValue * 255` holds, and 0 otherwise. -/
theorem C3_binary_rule (triangle : List ℚ → ℚ) (image : Tensor)
    (inverted : Bool) (threshValue : ℚ) (out : Tensor)
    (h : threshold_ triangle image "binary" inverted threshValue = Except.ok out) :
    out.data = (grayscaleData image).map
      (fun g => if (if inverted then decide (g ≤ threshValue * 255)
        else decide (threshValue * 255 < g)) then (255 : ℚ) else 0) := by
  obtain ⟨_, _, _, _, rfl⟩ := threshold_ok_elim _ _ _ _ _ _ h
  show binaryMask (grayscaleData image)
    (effectiveThreshold triangle image "binary" threshValue) inverted = _
  rw [effectiveThreshold_binary]
  rfl

/-- Witness for C3: the spec's 2x2 example, threshValue 0.5, not inverted,
yields `[[0,255],[255,0]]`. -/
theorem C3_witness :
    (threshold_ triZero (Tensor.mk [2, 2, 1] "int32" [10, 200, 250, 5]) "binary" false (1 / 2) =
      Except.ok (Tensor.mk [2, 2, 1] "int32" [0, 255, 255, 0])) ∧
    (Tensor.mk [2, 2, 1] "int32" [(0 : ℚ), 255, 255, 0]).data =
      (grayscaleData (Tensor.mk [2, 2, 1] "int32" [10, 200, 250, 5])).map
        (fun g => if (if false then decide (g ≤ (1 / 2 : ℚ) * 255)
          else decide ((1 / 2 : ℚ) * 255 < g)) then (255 : ℚ) else 0) := by
  have h : threshold_ triZero (Tensor.mk [2, 2, 1] "int32" [10, 200, 250, 5]) "binary"
      false (1 / 2) = Except.ok (Tensor.mk [2, 2, 1] "int32" [0, 255, 255, 0]) := by
    with_unfolding_all rfl
  exact ⟨h, C3_binary_rule triZero _ false (1 / 2) _ h⟩

/-- Claim C4: inversion law — for every image, method and threshValue, the
inverted call equals the pixelwise `255 - v` (0 and 255 swap) complement of
the non-inverted call; failing calls fail identically. -/
theorem C4_inversion_law (triangle : List ℚ → ℚ) (image : Tensor) (method : String)
    (threshValue : ℚ) :
    threshold_ triangle image method true threshValue =
      (threshold_ triangle image method false threshValue).map
        (fun out => Tensor.mk out.shape out.dtype (out.data.map (fun v => 255 - v))) := by
  unfold threshold_
  split_ifs
  · rw [binaryMask_inverted]
    rfl
  · rfl
  · rfl
  · rfl
  · rfl

/-- Claim C5, counterexample: on the 256-bucket histogram of a constant
image (all mass in bucket 0, total 1), `otsu` returns the sentinel `-1`,
which is not a candidate split index — in particular not the smallest
index achieving the maximal between-class variance — so the claimed
optimality property is false as stated. -/
theorem C5_degenerate_counterexample :
    claimedOtsuOptimal degHist 1 = false ∧ otsu degHist 1 = -1 ∧ degHist.length = 256 :=
  ⟨claimedOtsuOptimal_degHist, otsu_degHist, degHist_length⟩

/-- Claim C5 (amended): for every 256-bucket histogram on which some
candidate split in `[0,255)` attains positive between-class variance (with
empty-class means read as 0), the otsu search returns the earliest
candidate index achieving the maximal variance; on fully degenerate
histograms it returns `-1` instead. -/
theorem C5_otsu_earliest_argmax (histogram : List ℚ) (total : ℚ)
    (hlen : histogram.length = 256)
    (hpos : ∃ t, t < 255 ∧ 0 < otsuVar histogram total t) :
    ∃ r : ℕ, otsu histogram total = (r : ℤ) ∧ r < 255 ∧
      (∀ t, t < 255 → otsuVar histogram total t ≤ otsuVar histogram total r) ∧
      (∀ t, t < r → otsuVar histogram total t < otsuVar histogram total r) := by
  have h255 : histogram.length - 1 = 255 := by rw [hlen]
  have h := otsu_earliest_argmax histogram total (by rw [h255]; exact hpos)
  rw [h255] at h
  exact h

/-- Witness for C5 on the histogram with one pixel in bucket 0 and one in
bucket 255 (total 2): candidate 0 already has positive variance. -/
theorem C5_witness :
    (splitHist.length = 256 ∧ ∃ t, t < 255 ∧ 0 < otsuVar splitHist 2 t) ∧
    (∃ r : ℕ, otsu splitHist 2 = (r : ℤ) ∧ r < 255 ∧
      (∀ t, t < 255 → otsuVar splitHist 2 t ≤ otsuVar splitHist 2 r) ∧
      (∀ t, t < r → otsuVar splitHist 2 t < otsuVar splitHist 2 r)) := by
  have hpos : ∃ t, t < 255 ∧ 0 < otsuVar splitHist 2 t :=
    ⟨0, by norm_num, by rw [otsuVar_splitHist_zero]; norm_num⟩
  exact ⟨⟨splitHist_length, hpos⟩, C5_otsu_earliest_argmax splitHist 2 splitHist_length hpos⟩

/-- Claim C6: the grayscale used for thresholding equals the image itself
for 1-channel images, and for 3-channel images equals
`0.2989*R + 0.5870*G + 0.1140*B` elementwise (CCIR601 luma weights). -/
theorem C6_channel_reduction (image : Tensor) (p : ℕ) :
    (image.shape.getD 2 0 = 1 → grayscaleData image = image.data) ∧
    (image.shape.getD 2 0 = 3 → 3 * p + 2 < image.data.length →
      (grayscaleData image).getD p 0 =
        RED_INTENCITY_COEF * image.data.getD (3 * p) 0 +
        GREEN_INTENCITY_COEF * image.data.getD (3 * p + 1) 0 +
        BLUE_INTENCITY_COEF * image.data.getD (3 * p + 2) 0) := by
  constructor
  · intro hc
    have hne : ¬ image.shape.getD 2 0 = 3 := by rw [hc]; decide
    unfold grayscaleData
    rw [if_neg hne]
  · intro hc hlen
    unfold grayscaleData
    rw [if_pos hc]
    exact lumaChunks_getD image.data p hlen

/-- Witness for C6 at a concrete 3-channel pixel. -/
theorem C6_witness :
    grayscaleData (Tensor.mk [1, 1, 3] "int32" [10, 20, 30]) = [18149 / 1000] ∧
    (grayscaleData (Tensor.mk [1, 1, 3] "int32" [10, 20, 30])).getD 0 0 =
      RED_INTENCITY_COEF * 10 + GREEN_INTENCITY_COEF * 20 + BLUE_INTENCITY_COEF * 30 := by
  constructor
  · with_unfolding_all rfl
  · exact (C6_channel_reduction (Tensor.mk [1, 1, 3] "int32" [10, 20, 30]) 0).2 rfl (by decide)

/-- Claim C7: every input with wrong rank, wrong channel count, unsupported
dtype, or an unrecognized method string fails with a validation error and
produces no output. -/
theorem C7_validation_fails_fast (triangle : List ℚ → ℚ) (image : Tensor)
    (method : String) (inverted : Bool) (threshValue : ℚ)
    (h : image.shape.length ≠ 3 ∨
      (image.shape.getD 2 0 ≠ 3 ∧ image.shape.getD 2 0 ≠ 1) ∨
      (image.dtype ≠ "int32" ∧ image.dtype ≠ "float32") ∨
      (method ≠ "binary" ∧ method ≠ "otsu" ∧ method ≠ "triangle")) :
    ∃ e, threshold_ triangle image method inverted threshValue = Except.error e := by
  unfold threshold_
  split_ifs with h1 h2 h3 h4
  · exfalso
    rcases h with h | h | h | h
    · exact h h1
    · rcases h2 with h2 | h2
      · exact h.1 h2
      · exact h.2 h2
    · rcases h3 with h3 | h3
      · exact h.1 h3
      · exact h.2 h3
    · rcases h4 with h4 | h4
      · exact h.2.1 h4
      · exact h.1 h4
  · exact ⟨_, rfl⟩
  · exact ⟨_, rfl⟩
  · exact ⟨_, rfl⟩
  · exact ⟨_, rfl⟩

/-- Witness for C7 at a rank-2 input. -/
theorem C7_witness :
    ((Tensor.mk [2, 2] "int32" [0, 0, 0, 0]).shape.length ≠ 3 ∨
      ((Tensor.mk [2, 2] "int32" [0, 0, 0, 0]).shape.getD 2 0 ≠ 3 ∧
        (Tensor.mk [2, 2] "int32" [0, 0, 0, 0]).shape.getD 2 0 ≠ 1) ∨
      ((Tensor.mk [2, 2] "int32" [0, 0, 0, 0]).dtype ≠ "int32" ∧
        (Tensor.mk [2, 2] "int32" [0, 0, 0, 0]).dtype ≠ "float32") ∨
      (("binary" : String) ≠ "binary" ∧ ("binary" : String) ≠ "otsu" ∧
        ("binary" : String) ≠ "triangle")) ∧
    (∃ e, threshold_ triZero (Tensor.mk [2, 2] "int32" [0, 0, 0, 0]) "binary" false (1 / 2) =
      Except.error e) := by
  have hdis : (Tensor.mk [2, 2] "int32" [0, 0, 0, 0]).shape.length ≠ 3 ∨
      ((Tensor.mk [2, 2] "int32" [0, 0, 0, 0]).shape.getD 2 0 ≠ 3 ∧
        (Tensor.mk [2, 2] "int32" [0, 0, 0, 0]).shape.getD 2 0 ≠ 1) ∨
      ((Tensor.mk [2, 2] "int32" [0, 0, 0, 0]).dtype ≠ "int32" ∧
        (Tensor.mk [2, 2] "int32" [0, 0, 0, 0]).dtype ≠ "float32") ∨
      (("binary" : String) ≠ "binary" ∧ ("binary" : String) ≠ "otsu" ∧
        ("binary" : String) ≠ "triangle") := Or.inl (by decide)
  exact ⟨hdis, C7_validation_fails_fast triZero _ "binary" false (1 / 2) hdis⟩

/-- Claim C8, counterexample: threshValue is not validated, so
`threshValue = 2` is accepted, and the scalar threshold actually used for
partitioning is `510`, outside `[0,255]`. -/
theorem C8_threshold_out_of_range :
    threshold_ triZero (Tensor.mk [1, 1, 1] "int32" [100]) "binary" false 2 =
      Except.ok (Tensor.mk [1, 1, 1] "int32" [0]) ∧
    effectiveThreshold triZero (Tensor.mk [1, 1, 1] "int32" [100]) "binary" 2 = 510 ∧
    ¬ ((510 : ℚ) ≤ 255) := by
  refine ⟨by with_unfolding_all rfl, by with_unfolding_all rfl, by norm_num⟩

/-- Claim C8 (amended): for method binary the threshold is
`threshValue*255`, which lies in `[0,255]` whenever `threshValue` is within
its documented range `[0,1]`; for method otsu the threshold is either a
bucket index in `[0,255)` (hence within `[0,255]`) or the sentinel `-1` on
degenerate histograms. -/
theorem C8_threshold_range (triangle : List ℚ → ℚ) (image : Tensor) (threshValue : ℚ)
    (h0 : 0 ≤ threshValue) (h1 : threshValue ≤ 1) :
    (0 ≤ effectiveThreshold triangle image "binary" threshValue ∧
      effectiveThreshold triangle image "binary" threshValue ≤ 255) ∧
    (effectiveThreshold triangle image "otsu" threshValue = -1 ∨
      (0 ≤ effectiveThreshold triangle image "otsu" threshValue ∧
        effectiveThreshold triangle image "otsu" threshValue ≤ 254)) := by
  constructor
  · rw [effectiveThreshold_binary]
    constructor
    · exact mul_nonneg h0 (by norm_num)
    · calc threshValue * 255 ≤ 1 * 255 :=
            mul_le_mul_of_nonneg_right h1 (by norm_num)
        _ = 255 := one_mul 255
  · have heff : effectiveThreshold triangle image "otsu" threshValue =
        ((otsu (histogram256 (grayscaleData image)) (totalPixelsInImage image) : ℤ) : ℚ) := rfl
    have hlen : (histogram256 (grayscaleData image)).length = 256 := by
      simp [histogram256]
    rw [heff]
    rcases otsu_result_range (histogram256 (grayscaleData image)) (totalPixelsInImage image) with
      hneg | ⟨r, hr, hrlt⟩
    · rw [hneg]
      left
      norm_num
    · right
      rw [hlen] at hrlt
      rw [hr]
      have hb : r ≤ 254 := by omega
      constructor
      · exact_mod_cast (Nat.cast_nonneg r : (0 : ℚ) ≤ (r : ℚ))
      · exact_mod_cast hb

/-- Witness for C8 at threshValue 1/2 on a concrete image. -/
theorem C8_witness :
    ((0 : ℚ) ≤ 1 / 2 ∧ (1 / 2 : ℚ) ≤ 1) ∧
    ((0 ≤ effectiveThreshold triZero (Tensor.mk [1, 1, 1] "int32" [100]) "binary" (1 / 2) ∧
      effectiveThreshold triZero (Tensor.mk [1, 1, 1] "int32" [100]) "binary" (1 / 2) ≤ 255) ∧
    (effectiveThreshold triZero (Tensor.mk [1, 1, 1] "int32" [100]) "otsu" (1 / 2) = -1 ∨
      (0 ≤ effectiveThreshold triZero (Tensor.mk [1, 1, 1] "int32" [100]) "otsu" (1 / 2) ∧
        effectiveThreshold triZero (Tensor.mk [1, 1, 1] "int32" [100]) "otsu" (1 / 2) ≤ 254))) :=
  ⟨⟨by norm_num, by norm_num⟩,
    C8_threshold_range triZero (Tensor.mk [1, 1, 1] "int32" [100]) (1 / 2)
      (by norm_num) (by norm_num)⟩

/-- Claim C9: the triangle branch is unreachable — every call with method
`'triangle'` fails validation before reaching it, and the result of
`threshold_` never depends on the triangle function at all. -/
theorem C9_triangle_unreachable :
    (∀ (triangle : List ℚ → ℚ) (image : Tensor) (inverted : Bool) (threshValue : ℚ),
      ∃ e, threshold_ triangle image "triangle" inverted threshValue = Except.error e) ∧
    (∀ (tri tri' : List ℚ → ℚ) (image : Tensor) (method : String)
      (inverted : Bool) (threshValue : ℚ),
      threshold_ tri image method inverted threshValue =
        threshold_ tri' image method inverted threshValue) := by
  constructor
  · intro triangle image inverted threshValue
    unfold threshold_
    split_ifs with h1 h2 h3 h4
    · rcases h4 with h4 | h4 <;> exact absurd h4 (by decide)
    · exact ⟨_, rfl⟩
    · exact ⟨_, rfl⟩
    · exact ⟨_, rfl⟩
    · exact ⟨_, rfl⟩
  · intro tri tri' image method inverted threshValue
    unfold threshold_
    split_ifs with h1 h2 h3 h4
    · rcases h4 with h4 | h4 <;> subst h4 <;> rfl
    · rfl
    · rfl
    · rfl
    · rfl

/-- Claim C10: `threshValue` is never validated — any value, also outside
`[0,1]`, passes, the call succeeds on every valid image, and for method
binary the pixels are compared against `threshValue * 255` (for
`threshValue = 2` that is 510). -/
theorem C10_threshValue_unchecked (triangle : List ℚ → ℚ) (image : Tensor)
    (inverted : Bool) (threshValue : ℚ)
    (h1 : image.shape.length = 3)
    (h2 : image.shape.getD 2 0 = 3 ∨ image.shape.getD 2 0 = 1)
    (h3 : image.dtype = "int32" ∨ image.dtype = "float32") :
    threshold_ triangle image "binary" inverted threshValue =
      Except.ok (Tensor.mk [image.shape.getD 0 0, image.shape.getD 1 0, 1] "int32"
        (binaryMask (grayscaleData image) (threshValue * 255) inverted)) := by
  rw [threshold_ok_of_valid triangle image "binary" inverted threshValue h1 h2 h3 (Or.inr rfl),
    effectiveThreshold_binary]

/-- Witness for C10 at threshValue 2 (outside `[0,1]`) on a valid image. -/
theorem C10_witness :
    ((Tensor.mk [1, 1, 1] "int32" [300]).shape.length = 3 ∧
      ((Tensor.mk [1, 1, 1] "int32" [300]).shape.getD 2 0 = 3 ∨
        (Tensor.mk [1, 1, 1] "int32" [300]).shape.getD 2 0 = 1) ∧
      ((Tensor.mk [1, 1, 1] "int32" [300]).dtype = "int32" ∨
        (Tensor.mk [1, 1, 1] "int32" [300]).dtype = "float32")) ∧
    threshold_ triZero (Tensor.mk [1, 1, 1] "int32" [300]) "binary" false 2 =
      Except.ok (Tensor.mk [1, 1, 1] "int32" (binaryMask [300] (2 * 255) false)) := by
  refine ⟨⟨rfl, Or.inr rfl, Or.inl rfl⟩, ?_⟩
  exact C10_threshValue_unchecked triZero (Tensor.mk [1, 1, 1] "int32" [300]) false 2
    rfl (Or.inr rfl) (Or.inl rfl)

end ThresholdSpec
